import Mathlib

/-!
Verification of the RFC 5322 / MIME email message encoder of gogcli
(`buildRFC822` and its helpers).  Go strings are modelled as byte lists
(`List Nat`, each entry one byte); the ambient randomness (crypto/rand),
the filesystem (os.ReadFile) and the clock are modelled as explicit
injected inputs, following the design notes of the specification.
-/

set_option maxRecDepth 100000
set_option maxHeartbeats 1000000

/-- UTF-8 encoding of one unicode code point, as Go stores strings. -/
def utf8Bytes (c : Char) : List Nat :=
  let n := c.toNat
  if n < 0x80 then [n]
  else if n < 0x800 then [0xC0 + n / 64, 0x80 + n % 64]
  else if n < 0x10000 then [0xE0 + n / 4096, 0x80 + (n / 64) % 64, 0x80 + n % 64]
  else [0xF0 + n / 262144, 0x80 + (n / 4096) % 64, 0x80 + (n / 64) % 64, 0x80 + n % 64]

/-- A Go string literal as its byte sequence. -/
def str (s : String) : List Nat := s.toList.flatMap utf8Bytes

/-- The two-byte CRLF line terminator. -/
def crlf : List Nat := [13, 10]

/-- Space bytes trimmed by the ASCII fast path of Go strings.TrimSpace
(tab, LF, VT, FF, CR, space).  The Unicode slow path of TrimSpace (NEL,
NBSP and other White_Space runes) is not modelled; every string trimmed
by the encoder under a claim is ASCII at the trimmed ends. -/
def isSpaceByte (c : Nat) : Bool := decide (c = 32 ∨ (9 ≤ c ∧ c ≤ 13))

/-- Model of Go strings.TrimSpace on byte strings. -/
def trimSpace (s : List Nat) : List Nat :=
  ((s.dropWhile isSpaceByte).reverse.dropWhile isSpaceByte).reverse

/-- Whether the pattern is a leading run of the candidate list. -/
def leadMatch : List Nat → List Nat → Bool
  | [], _ => true
  | _ :: _, [] => false
  | p :: ps, c :: cs => p == c && leadMatch ps cs

/-- Whether the pattern occurs contiguously somewhere in the list
(Go strings.Contains for non-trivial patterns). -/
def hasSub (pat : List Nat) : List Nat → Bool
  | [] => leadMatch pat []
  | c :: cs => leadMatch pat (c :: cs) || hasSub pat cs

/-- Source `validateHeaderValue` (part_000 lines 249-254): a header value
is rejected exactly when it contains a CR or LF byte. -/
def validateHeaderValue (v : List Nat) : Bool := !(v.contains 13 || v.contains 10)

/-- Source `isASCII` (part_000 lines 291-298): every byte below 0x80. -/
def isASCII (s : List Nat) : Bool := s.all (fun c => decide (c < 128))

/-- ASCII lowercasing of a byte string.  Models Go strings.ToLower /
the ASCII case folding of strings.EqualFold; the full Unicode folding
is not modelled (all folded strings under the claims are ASCII). -/
def lowerAscii (s : List Nat) : List Nat :=
  s.map (fun c => if 65 ≤ c ∧ c ≤ 90 then c + 32 else c)

/-- Model of Go strings.EqualFold on byte strings (ASCII folding). -/
def asciiEqualFold (a b : List Nat) : Bool := lowerAscii a == lowerAscii b

/-- Source `hasHeader` (part_000 lines 256-263): some key of the
additional-headers mapping is case-insensitively equal to the name. -/
def hasHeader (headers : List (List Nat × List Nat)) (name : List Nat) : Bool :=
  headers.any (fun kv => asciiEqualFold kv.1 name)

/-- Go strings.ReplaceAll of CRLF by LF (first step of normalizeCRLF). -/
def crlfToLF : List Nat → List Nat
  | [] => []
  | 13 :: 10 :: rest => 10 :: crlfToLF rest
  | c :: rest => c :: crlfToLF rest

/-- Go strings.ReplaceAll of CR by LF (second step of normalizeCRLF). -/
def crToLF (s : List Nat) : List Nat := s.map (fun c => if c = 13 then 10 else c)

/-- Go strings.ReplaceAll of LF by CRLF (third step of normalizeCRLF). -/
def lfToCRLF (s : List Nat) : List Nat := s.flatMap (fun c => if c = 10 then [13, 10] else [c])

/-- Source `normalizeCRLF` (part_000 lines 300-305). -/
def normalizeCRLF (s : List Nat) : List Nat := lfToCRLF (crToLF (crlfToLF s))

/-- Source `writeBodyWithTrailingCRLF` (part_000 lines 227-232), as the
bytes it appends: the body plus a CRLF unless the body already ends in one. -/
def bodyWithTrailingCRLF (body : List Nat) : List Nat :=
  body ++ (if crlf.isSuffixOf body then [] else crlf)

/-- Source `writeHeader` (part_000 lines 205-210), as the line it appends. -/
def headerLine (name value : List Nat) : List Nat := name ++ str ": " ++ value ++ crlf

/-- Go strings.Join with separator comma-space. -/
def joinComma : List (List Nat) → List Nat
  | [] => []
  | [a] => a
  | a :: rest => a ++ str ", " ++ joinComma rest

/-- Standard base64 alphabet, by sextet index. -/
def b64char (n : Nat) : Nat :=
  if n < 26 then 65 + n
  else if n < 52 then 71 + n
  else if n < 62 then n - 4
  else if n = 62 then 43
  else 47

/-- URL-safe base64 alphabet, by sextet index. -/
def b64urlChar (n : Nat) : Nat :=
  if n < 26 then 65 + n
  else if n < 52 then 71 + n
  else if n < 62 then n - 4
  else if n = 62 then 45
  else 95

/-- Go encoding/base64 StdEncoding.EncodeToString on byte lists
(padded with the 61 byte, the equals sign). -/
def base64Std : List Nat → List Nat
  | b0 :: b1 :: b2 :: rest =>
    b64char (b0 / 4) :: b64char (b0 % 4 * 16 + b1 / 16) ::
      b64char (b1 % 16 * 4 + b2 / 64) :: b64char (b2 % 64) :: base64Std rest
  | [b0, b1] => [b64char (b0 / 4), b64char (b0 % 4 * 16 + b1 / 16), b64char (b1 % 16 * 4), 61]
  | [b0] => [b64char (b0 / 4), b64char (b0 % 4 * 16), 61, 61]
  | [] => []

/-- Go encoding/base64 RawURLEncoding.EncodeToString (no padding). -/
def base64RawURL : List Nat → List Nat
  | b0 :: b1 :: b2 :: rest =>
    b64urlChar (b0 / 4) :: b64urlChar (b0 % 4 * 16 + b1 / 16) ::
      b64urlChar (b1 % 16 * 4 + b2 / 64) :: b64urlChar (b2 % 64) :: base64RawURL rest
  | [b0, b1] => [b64urlChar (b0 / 4), b64urlChar (b0 % 4 * 16 + b1 / 16), b64urlChar (b1 % 16 * 4)]
  | [b0] => [b64urlChar (b0 / 4), b64urlChar (b0 % 4 * 16)]
  | [] => []

/-- Inverse of the URL-safe base64 alphabet. -/
def b64urlDecodeChar (c : Nat) : Nat :=
  if 65 ≤ c ∧ c ≤ 90 then c - 65
  else if 97 ≤ c ∧ c ≤ 122 then c - 71
  else if 48 ≤ c ∧ c ≤ 57 then c + 4
  else if c = 45 then 62
  else 63

/-- Decoder for unpadded URL-safe base64, used to show the encoding is
injective. -/
def decodeRawURL : List Nat → List Nat
  | c0 :: c1 :: c2 :: c3 :: rest =>
    (b64urlDecodeChar c0 * 4 + b64urlDecodeChar c1 / 16) ::
      (b64urlDecodeChar c1 % 16 * 16 + b64urlDecodeChar c2 / 4) ::
      (b64urlDecodeChar c2 % 4 * 64 + b64urlDecodeChar c3) :: decodeRawURL rest
  | [c0, c1, c2] =>
    [b64urlDecodeChar c0 * 4 + b64urlDecodeChar c1 / 16,
      b64urlDecodeChar c1 % 16 * 16 + b64urlDecodeChar c2 / 4]
  | [c0, c1] => [b64urlDecodeChar c0 * 4 + b64urlDecodeChar c1 / 16]
  | _ => []

/-- The wrapping loop of source `wrapBase64` (part_000 lines 216-220): as
long as more than 76 bytes remain, emit 76 bytes and a CRLF.  The fuel
argument only drives structural recursion; wrapBase64 supplies enough. -/
def chunkLoop : Nat → List Nat → List Nat
  | 0, s => s
  | f + 1, s => if 76 < s.length then s.take 76 ++ crlf ++ chunkLoop f (s.drop 76) else s

/-- Source `wrapBase64` (part_000 lines 212-225): base64, hard-wrapped. -/
def wrapBase64 (b : List Nat) : List Nat :=
  chunkLoop (base64Std b).length (base64Std b)

/-- The lines the wrapping loop produces, as a list of lines. -/
def chunksLoop : Nat → List Nat → List (List Nat)
  | 0, s => [s]
  | f + 1, s => if 76 < s.length then s.take 76 :: chunksLoop f (s.drop 76) else [s]

/-- Join lines with CRLF separators (no trailing separator). -/
def joinCRLF : List (List Nat) → List Nat
  | [] => []
  | [l] => l
  | l :: ls => l ++ crlf ++ joinCRLF ls

/-- The base64 payload lines of an attachment body. -/
def b64Lines (data : List Nat) : List (List Nat) :=
  chunksLoop (base64Std data).length (base64Std data)

/-- Lowercase hexadecimal digit byte. -/
def hexLowerDigit (n : Nat) : Nat := if n < 10 then 48 + n else 87 + n

/-- Uppercase hexadecimal digit byte. -/
def hexUpperDigit (n : Nat) : Nat := if n < 10 then 48 + n else 55 + n

/-- One byte of Go strconv.Quote output (the %q verb), restricted to the
byte range: quote and backslash are backslash-escaped, printable ASCII is
kept, the named control escapes apply, anything else becomes a hex escape. -/
def goQuoteByte (c : Nat) : List Nat :=
  if c = 34 ∨ c = 92 then [92, c]
  else if 32 ≤ c ∧ c ≤ 126 then [c]
  else if c = 7 then [92, 97]
  else if c = 8 then [92, 98]
  else if c = 12 then [92, 102]
  else if c = 10 then [92, 110]
  else if c = 13 then [92, 114]
  else if c = 9 then [92, 116]
  else if c = 11 then [92, 118]
  else [92, 120, hexLowerDigit (c / 16), hexLowerDigit (c % 16)]

/-- Go strconv.Quote (the %q formatting verb) on ASCII byte strings; every
call site in the source quotes an ASCII string. -/
def goQuote (s : List Nat) : List Nat := 34 :: s.flatMap goQuoteByte ++ [34]

/-- Bytes that Go net/url QueryEscape leaves unescaped. -/
def queryUnescapedByte (b : Nat) : Bool :=
  decide ((48 ≤ b ∧ b ≤ 57) ∨ (65 ≤ b ∧ b ≤ 90) ∨ (97 ≤ b ∧ b ≤ 122) ∨
    b = 45 ∨ b = 95 ∨ b = 46 ∨ b = 126)

/-- Go net/url QueryEscape: space becomes plus, unreserved bytes stay,
everything else is percent-encoded with uppercase hex. -/
def queryEscape (s : List Nat) : List Nat :=
  s.flatMap (fun b =>
    if b = 32 then [43]
    else if queryUnescapedByte b then [b]
    else [37, hexUpperDigit (b / 16), hexUpperDigit (b % 16)])

/-- Source `rfc5987Encode` (part_000 lines 319-323): QueryEscape with the
plus bytes (which can only come from spaces) replaced by percent-2-0. -/
def rfc5987Encode (s : List Nat) : List Nat :=
  (queryEscape s).flatMap (fun b => if b = 43 then [37, 50, 48] else [b])

/-- One byte of the RFC 2047 Q encoding as Go mime.WordEncoder writes it:
space becomes underscore, printable ASCII other than equals, question
mark and underscore stays, everything else is an equals-sign hex escape. -/
def qEncodeByte (b : Nat) : List Nat :=
  if b = 32 then [95]
  else if 33 ≤ b ∧ b ≤ 126 ∧ b ≠ 61 ∧ b ≠ 63 ∧ b ≠ 95 then [b]
  else [61, hexUpperDigit (b / 16), hexUpperDigit (b % 16)]

/-- Model of Go mime.QEncoding.Encode with charset utf-8 for values that
need encoding (every call site passes a non-ASCII value, which always
needs encoding).  The 75-byte encoded-word splitting of the Go encoder is
not modelled: splitting only repeats the same opening token, so the
leading bytes of the header value are unaffected. -/
def qEncode (v : List Nat) : List Nat :=
  str "=?utf-8?q?" ++ v.flatMap qEncodeByte ++ str "?="

/-- Source `encodeHeaderIfNeeded` (part_000 lines 284-289). -/
def encodeHeaderIfNeeded (v : List Nat) : List Nat :=
  if isASCII v then v else qEncode v

/-- Source `contentDispositionFilename` (part_000 lines 307-317). -/
def contentDispositionFilename (filename : List Nat) : List Nat :=
  if (trimSpace filename).isEmpty then str "filename=" ++ [34] ++ str "attachment" ++ [34]
  else if isASCII (trimSpace filename) then str "filename=" ++ goQuote (trimSpace filename)
  else str "filename*=UTF-8" ++ [39, 39] ++ rfc5987Encode (trimSpace filename)

/-- The final path segment after the last slash (empty when the list ends
in a slash). -/
def afterLastSlash (l : List Nat) : List Nat :=
  (l.reverse.takeWhile (fun c => c != 47)).reverse

/-- Go path/filepath Base on unix paths. -/
def filepathBase (p : List Nat) : List Nat :=
  if p.isEmpty then [46]
  else
    let q := (p.reverse.dropWhile (fun c => c == 47)).reverse
    let r := afterLastSlash q
    if r.isEmpty then [47] else r

/-- Go path/filepath Ext on unix paths: the suffix starting at the final
dot of the final path element, empty when that element has no dot. -/
def filepathExt (p : List Nat) : List Nat :=
  let revSeg := p.reverse.takeWhile (fun c => c != 47)
  if revSeg.contains 46 then ((revSeg.takeWhile (fun c => c != 46)) ++ [46]).reverse
  else []

/-- Index of the last at-sign byte, if any (Go strings.LastIndex). -/
def lastIndexAt : List Nat → Option Nat
  | [] => none
  | c :: rest =>
    match lastIndexAt rest with
    | some i => some (i + 1)
    | none => if c = 64 then some 0 else none

/-- Go strings.Trim with cutset space and greater-than. -/
def trimSpaceGt (s : List Nat) : List Nat :=
  ((s.dropWhile (fun c => c == 32 || c == 62)).reverse.dropWhile
    (fun c => c == 32 || c == 62)).reverse

/-- Modelled from the spec: the domain-resolution order of the Message-ID
generator.  The structured branch through Go net/mail ParseAddress (not
part of the sources under src) is not modelled; this is the naive
fallback branch of the source, which agrees with the structured branch on
plain addr-spec strings, with the fixed literal fallback domain.  No
claim depends on the domain value. -/
def messageIDDomain (fromAddr : List Nat) : List Nat :=
  match lastIndexAt fromAddr with
  | some i =>
    if i + 1 < fromAddr.length then trimSpaceGt (trimSpace (fromAddr.drop (i + 1)))
    else str "gogcli.local"
  | none => str "gogcli.local"

/-- Source `randomMessageID` result format (part_000 lines 280-281):
angle brackets around the base64url local part, at-sign, domain. -/
def formatMessageID (localBytes fromAddr : List Nat) : List Nat :=
  [60] ++ base64RawURL localBytes ++ [64] ++ messageIDDomain fromAddr ++ [62]

/-- Source `randomBoundary` (part_000 lines 241-247), applied to the 18
bytes drawn from the random source. -/
def randomBoundary (bs : List Nat) : List Nat := str "gogcli_" ++ base64RawURL bs

/-- Source `mailAttachment` (part_000 lines 18-23). -/
structure mailAttachment where
  Path : List Nat
  Filename : List Nat
  MIMEType : List Nat
  Data : List Nat
deriving DecidableEq

/-- Source `mailOptions` (part_000 lines 25-38); the additional-headers
map is modelled as an association list (spec: iteration order over the
mapping is unspecified). -/
structure mailOptions where
  From : List Nat
  To : List (List Nat)
  Cc : List (List Nat)
  Bcc : List (List Nat)
  ReplyTo : List Nat
  Subject : List Nat
  Body : List Nat
  BodyHTML : List Nat
  InReplyTo : List Nat
  References : List Nat
  AdditionalHeaders : List (List Nat × List Nat)
  Attachments : List mailAttachment
deriving DecidableEq

/-- The ambient capabilities the encoder touches, made explicit: the
filesystem for attachment reads, the mime-type table keyed by lowercased
extension, and the already-formatted Date header value. -/
structure Env where
  fs : List Nat → Option (List Nat)
  mimeByExt : List Nat → List Nat
  now : List Nat

/-- The error kinds of the encoder. -/
inductive MailError where
  | missingFrom
  | missingTo
  | missingSubject
  | invalidHeader (which : List Nat)
  | attachmentUnreadable (path : List Nat)
  | randomSourceFailure
deriving DecidableEq

/-- Whether an error is one of the three MissingField errors. -/
def MailError.isMissingField : MailError → Bool
  | .missingFrom => true
  | .missingTo => true
  | .missingSubject => true
  | _ => false

/-- Whether an error is an InvalidHeaderValue error. -/
def MailError.isInvalidHeaderValue : MailError → Bool
  | .invalidHeader _ => true
  | _ => false

/-- Model of crypto/rand Read: draw n bytes from the injected entropy
stream; failure of the random source is modelled as stream exhaustion. -/
def randRead (n : Nat) (ent : List Nat) : Option (List Nat × List Nat) :=
  if n ≤ ent.length then some (ent.take n, ent.drop n) else none

/-- Attachment resolution (part_000 lines 176-191): fill a blank filename
from the path, a blank MIME type from the lowercased extension with the
octet-stream fallback, and empty data from the filesystem. -/
def resolveAttachment (env : Env) (a : mailAttachment) : Except MailError mailAttachment :=
  let fn := if a.Filename.isEmpty then filepathBase a.Path else a.Filename
  let mt :=
    if a.MIMEType.isEmpty then
      let m := env.mimeByExt (lowerAscii (filepathExt fn))
      if m.isEmpty then str "application/octet-stream" else m
    else a.MIMEType
  if a.Data.isEmpty then
    match env.fs a.Path with
    | some d => .ok ⟨a.Path, fn, mt, d⟩
    | none => .error (.attachmentUnreadable a.Path)
  else .ok ⟨a.Path, fn, mt, a.Data⟩

/-- The bytes emitted for one resolved attachment (part_000 lines 193-198). -/
def attachmentPart (bnd : List Nat) (a : mailAttachment) : List Nat :=
  crlf ++ str "--" ++ bnd ++ crlf
    ++ str "Content-Type: " ++ a.MIMEType ++ crlf
    ++ str "Content-Transfer-Encoding: base64" ++ crlf
    ++ str "Content-Disposition: attachment; " ++ contentDispositionFilename a.Filename
    ++ crlf ++ crlf
    ++ wrapBase64 a.Data ++ crlf

/-- The attachment loop (part_000 lines 175-199).  The loop variable is a
copy of the element (Go range-copy semantics): resolution fills the copy,
and the returned first component is the attachment array as the loop
leaves it, element for element the input array. -/
def writeAttachments (env : Env) (bnd : List Nat) :
    List mailAttachment → Except MailError (List mailAttachment × List Nat)
  | [] => .ok ([], [])
  | a :: rest =>
    match resolveAttachment env a with
    | .error e => .error e
    | .ok r =>
      match writeAttachments env bnd rest with
      | .error e => .error e
      | .ok (restArr, restBytes) => .ok (a :: restArr, attachmentPart bnd r ++ restBytes)

/-- The additional-headers loop (part_000 lines 101-108): entries whose
key and value are both non-blank are validated (value only) and written. -/
def writeAdditionalHeaders (b : List Nat) :
    List (List Nat × List Nat) → Except MailError (List Nat)
  | [] => .ok b
  | (k, v) :: rest =>
    if !(trimSpace k).isEmpty && !(trimSpace v).isEmpty then
      if validateHeaderValue v then writeAdditionalHeaders (b ++ headerLine k v) rest
      else .error (.invalidHeader k)
    else writeAdditionalHeaders b rest

/-- The fixed header block written before the Message-ID decision
(part_000 lines 62-80): From, To, Cc and Bcc when present, Reply-To when
non-blank (trimmed), Subject through the encode-if-needed step, Date. -/
def headersBeforeMid (env : Env) (opts : mailOptions) : List Nat :=
  headerLine (str "From") opts.From
    ++ headerLine (str "To") (joinComma opts.To)
    ++ (if opts.Cc.isEmpty then [] else headerLine (str "Cc") (joinComma opts.Cc))
    ++ (if opts.Bcc.isEmpty then [] else headerLine (str "Bcc") (joinComma opts.Bcc))
    ++ (if (trimSpace opts.ReplyTo).isEmpty then []
        else headerLine (str "Reply-To") (trimSpace opts.ReplyTo))
    ++ headerLine (str "Subject") (encodeHeaderIfNeeded opts.Subject)
    ++ headerLine (str "Date") env.now

/-- The Message-ID step (part_000 lines 81-87): skipped when the caller
already supplied a Message-ID key in any case, otherwise 16 random bytes
make the local part. -/
def messageIDHeaderPart (ent : List Nat) (opts : mailOptions) :
    Except MailError (List Nat × List Nat) :=
  if hasHeader opts.AdditionalHeaders (str "Message-ID")
      || hasHeader opts.AdditionalHeaders (str "Message-Id") then
    .ok ([], ent)
  else
    match randRead 16 ent with
    | none => .error .randomSourceFailure
    | some (bs, rest) => .ok (headerLine (str "Message-ID") (formatMessageID bs opts.From), rest)

/-- The header stage after the Message-ID step (part_000 lines 88-108):
MIME-Version, validated In-Reply-To and References headers when present,
then the additional-headers loop over the written header block. -/
def headerStageTail (env : Env) (opts : mailOptions) (mid ent1 : List Nat) :
    Except MailError (List Nat × List Nat) :=
  if !(trimSpace opts.InReplyTo).isEmpty && !validateHeaderValue opts.InReplyTo then
    .error (.invalidHeader (str "In-Reply-To"))
  else if !(trimSpace opts.References).isEmpty && !validateHeaderValue opts.References then
    .error (.invalidHeader (str "References"))
  else
    match writeAdditionalHeaders
        (headersBeforeMid env opts ++ mid
          ++ headerLine (str "MIME-Version") (str "1.0")
          ++ (if (trimSpace opts.InReplyTo).isEmpty then []
              else headerLine (str "In-Reply-To") (trimSpace opts.InReplyTo))
          ++ (if (trimSpace opts.References).isEmpty then []
              else headerLine (str "References") (trimSpace opts.References)))
        opts.AdditionalHeaders with
    | .error e => .error e
    | .ok hdr => .ok (hdr, ent1)

/-- Validation and header block of `buildRFC822` (part_000 lines 41-108),
in source order: missing-field checks, From and address CR/LF checks,
then the headers, with Reply-To, Subject, In-Reply-To, References and
additional-header values validated at the points the source does.
Returns the header block and the entropy left after the Message-ID step. -/
def headerStage (env : Env) (ent : List Nat) (opts : mailOptions) :
    Except MailError (List Nat × List Nat) :=
  if (trimSpace opts.From).isEmpty then .error .missingFrom
  else if opts.To.isEmpty then .error .missingTo
  else if (trimSpace opts.Subject).isEmpty then .error .missingSubject
  else if !validateHeaderValue opts.From then .error (.invalidHeader (str "From"))
  else if !(opts.To ++ opts.Cc ++ opts.Bcc).all validateHeaderValue then
    .error (.invalidHeader (str "address"))
  else if !(trimSpace opts.ReplyTo).isEmpty && !validateHeaderValue opts.ReplyTo then
    .error (.invalidHeader (str "Reply-To"))
  else if !validateHeaderValue opts.Subject then .error (.invalidHeader (str "Subject"))
  else
    match messageIDHeaderPart ent opts with
    | .error e => .error e
    | .ok (mid, ent1) => headerStageTail env opts mid ent1

/-- Source `writeTextPart` (part_000 lines 234-239). -/
def writeTextPart (bnd ct body : List Nat) : List Nat :=
  str "--" ++ bnd ++ crlf ++ str "Content-Type: " ++ ct ++ crlf
    ++ str "Content-Transfer-Encoding: 7bit" ++ crlf ++ crlf ++ bodyWithTrailingCRLF body

/-- The closing delimiter of a multipart region. -/
def closeBoundary (bnd : List Nat) : List Nat := str "--" ++ bnd ++ str "--" ++ crlf

/-- The two alternative parts and closing delimiter of a
multipart/alternative region, plain first, html second. -/
def altSection (bnd plainBody htmlBody : List Nat) : List Nat :=
  writeTextPart bnd (str "text/plain; charset=\"utf-8\"") plainBody
    ++ writeTextPart bnd (str "text/html; charset=\"utf-8\"") htmlBody
    ++ closeBoundary bnd

/-- Whether the CRLF-normalized plain body is non-blank after trimming
(source line 112). -/
def hasPlainB (opts : mailOptions) : Bool :=
  !(trimSpace (normalizeCRLF opts.Body)).isEmpty

/-- Whether the CRLF-normalized html body is non-blank after trimming
(source line 113). -/
def hasHTMLB (opts : mailOptions) : Bool :=
  !(trimSpace (normalizeCRLF opts.BodyHTML)).isEmpty

/-- The first part of the mixed envelope (part_000 lines 154-172): the
source's body switch repeated with a fresh inner boundary when both
bodies are present.  Returns the part bytes and the remaining entropy. -/
def mixedFirstPart (ent : List Nat) (opts : mailOptions) :
    Except MailError (List Nat × List Nat) :=
  if hasPlainB opts && hasHTMLB opts then
    match randRead 18 ent with
    | none => .error .randomSourceFailure
    | some (bs2, ent3) =>
      .ok (str "Content-Type: multipart/alternative; boundary="
        ++ goQuote (randomBoundary bs2) ++ crlf ++ crlf
        ++ altSection (randomBoundary bs2) (normalizeCRLF opts.Body)
            (normalizeCRLF opts.BodyHTML), ent3)
  else if hasHTMLB opts && !hasPlainB opts then
    .ok (str "Content-Type: text/html; charset=\"utf-8\"" ++ crlf
      ++ str "Content-Transfer-Encoding: 7bit" ++ crlf ++ crlf
      ++ bodyWithTrailingCRLF (normalizeCRLF opts.BodyHTML), ent)
  else
    .ok (str "Content-Type: text/plain; charset=\"utf-8\"" ++ crlf
      ++ str "Content-Transfer-Encoding: 7bit" ++ crlf ++ crlf
      ++ bodyWithTrailingCRLF (normalizeCRLF opts.Body), ent)

/-- Body and attachments of `buildRFC822` (part_000 lines 110-202),
mirroring the source: the no-attachment switch, and the mixed envelope
whose first part repeats the switch with a fresh inner boundary before
the attachment loop. -/
def bodyStage (env : Env) (ent : List Nat) (opts : mailOptions) (hdr : List Nat) :
    Except MailError (List Nat) :=
  if opts.Attachments.isEmpty then
    if hasPlainB opts && hasHTMLB opts then
      match randRead 18 ent with
      | none => .error .randomSourceFailure
      | some (bs, _) =>
        .ok (hdr
          ++ headerLine (str "Content-Type")
            (str "multipart/alternative; boundary=" ++ goQuote (randomBoundary bs))
          ++ crlf ++ altSection (randomBoundary bs) (normalizeCRLF opts.Body)
              (normalizeCRLF opts.BodyHTML))
    else if hasHTMLB opts && !hasPlainB opts then
      .ok (hdr ++ headerLine (str "Content-Type") (str "text/html; charset=\"utf-8\"")
        ++ headerLine (str "Content-Transfer-Encoding") (str "7bit") ++ crlf
        ++ bodyWithTrailingCRLF (normalizeCRLF opts.BodyHTML))
    else
      .ok (hdr ++ headerLine (str "Content-Type") (str "text/plain; charset=\"utf-8\"")
        ++ headerLine (str "Content-Transfer-Encoding") (str "7bit") ++ crlf
        ++ bodyWithTrailingCRLF (normalizeCRLF opts.Body))
  else
    match randRead 18 ent with
    | none => .error .randomSourceFailure
    | some (bs, ent2) =>
      match mixedFirstPart ent2 opts with
      | .error e => .error e
      | .ok (bodyPart, _) =>
        match writeAttachments env (randomBoundary bs) opts.Attachments with
        | .error e => .error e
        | .ok (_, attachBytes) =>
          .ok (hdr
            ++ headerLine (str "Content-Type")
              (str "multipart/mixed; boundary=" ++ goQuote (randomBoundary bs))
            ++ crlf ++ str "--" ++ randomBoundary bs ++ crlf
            ++ bodyPart ++ attachBytes ++ closeBoundary (randomBoundary bs))

/-- Source `buildRFC822` (part_000 lines 40-203): validation and headers,
then the body stage. -/
def buildRFC822 (env : Env) (ent : List Nat) (opts : mailOptions) :
    Except MailError (List Nat) :=
  match headerStage env ent opts with
  | .error e => .error e
  | .ok (hdr, ent1) => bodyStage env ent1 opts hdr

/-- The body part of a single-part region, as the spec words it: the
content-type line, the 7bit transfer-encoding line, a blank line, the
normalized body with a terminating CRLF. -/
def specSinglePart (ct body : List Nat) : List Nat :=
  str "Content-Type: " ++ ct ++ crlf ++ str "Content-Transfer-Encoding: 7bit" ++ crlf ++ crlf
    ++ bodyWithTrailingCRLF body

/-- The 3-way body rule as the claim words it, shared between the
no-attachment message and the first part of the mixed envelope: both
bodies non-blank gives multipart/alternative with one fresh boundary,
plain part first, html part second, both 7bit; only html non-blank gives
a single html part; otherwise a single plain part. -/
def spec3Way (ent plainBody htmlBody : List Nat) : Except MailError (List Nat × List Nat) :=
  if !(trimSpace plainBody).isEmpty && !(trimSpace htmlBody).isEmpty then
    match randRead 18 ent with
    | none => .error .randomSourceFailure
    | some (bs, entRest) =>
      .ok (str "Content-Type: multipart/alternative; boundary="
        ++ goQuote (randomBoundary bs) ++ crlf ++ crlf
        ++ altSection (randomBoundary bs) plainBody htmlBody, entRest)
  else if !(trimSpace htmlBody).isEmpty then
    .ok (specSinglePart (str "text/html; charset=\"utf-8\"") htmlBody, ent)
  else
    .ok (specSinglePart (str "text/plain; charset=\"utf-8\"") plainBody, ent)

/-- The body shape as the claim words it: with no attachments the 3-way
rule directly after the header block; with attachments an outer
multipart/mixed whose first part is the body built by the same 3-way rule
(inner boundary drawn after the outer one), followed by one
base64-encoded part per attachment in input order, then the closing
delimiter. -/
def specBodyStage (env : Env) (ent : List Nat) (opts : mailOptions) (hdr : List Nat) :
    Except MailError (List Nat) :=
  if opts.Attachments.isEmpty then
    match spec3Way ent (normalizeCRLF opts.Body) (normalizeCRLF opts.BodyHTML) with
    | .error e => .error e
    | .ok (bodyBytes, _) => .ok (hdr ++ bodyBytes)
  else
    match randRead 18 ent with
    | none => .error .randomSourceFailure
    | some (bs, ent2) =>
      match spec3Way ent2 (normalizeCRLF opts.Body) (normalizeCRLF opts.BodyHTML) with
      | .error e => .error e
      | .ok (bodyBytes, _) =>
        match writeAttachments env (randomBoundary bs) opts.Attachments with
        | .error e => .error e
        | .ok (_, attachBytes) =>
          .ok (hdr
            ++ headerLine (str "Content-Type")
              (str "multipart/mixed; boundary=" ++ goQuote (randomBoundary bs))
            ++ crlf ++ str "--" ++ randomBoundary bs ++ crlf
            ++ bodyBytes ++ attachBytes ++ closeBoundary (randomBoundary bs))

/-- The encoder with its body built by the claim-worded shape rule. -/
def buildSpec (env : Env) (ent : List Nat) (opts : mailOptions) :
    Except MailError (List Nat) :=
  match headerStage env ent opts with
  | .error e => .error e
  | .ok (hdr, ent1) => specBodyStage env ent1 opts hdr

/-- Whether an encode result is a success. -/
def isOkB : Except MailError (List Nat) → Bool
  | .ok _ => true
  | .error _ => false

/-- The bytes of a successful encode result (empty on error). -/
def okBytes : Except MailError (List Nat) → List Nat
  | .ok m => m
  | .error _ => []

/-- A concrete environment: empty filesystem, empty mime table, fixed date. -/
def env0 : Env := ⟨fun _ => none, fun _ => [], str "Mon, 01 Jan 2024 00:00:00 +0000"⟩

/-- Sixteen bytes of entropy, enough for one Message-ID draw. -/
def ent16 : List Nat := List.replicate 16 7

/-- Thirty-six zero bytes of entropy: two equal 18-byte boundary draws. -/
def ent36zero : List Nat := List.replicate 36 0

/-- A minimal valid request: plain body only, no attachments. -/
def optsBase : mailOptions :=
  ⟨str "a@b.com", [str "c@d.com"], [], [], [], str "Hi", str "Hello", [], [], [], [], []⟩

/-- The base request with a Reply-To consisting of one CR byte. -/
def optsReplyToCR : mailOptions :=
  ⟨str "a@b.com", [str "c@d.com"], [], [], [13], str "Hi", str "Hello", [], [], [], [], []⟩

/-- The base request with an empty From. -/
def optsNoFrom : mailOptions :=
  ⟨[], [str "c@d.com"], [], [], [], str "Hi", str "Hello", [], [], [], [], []⟩

/-- The base request with a CR inside a To address. -/
def optsBadAddr : mailOptions :=
  ⟨str "a@b.com", [str "x\r@y"], [], [], [], str "Hi", str "Hello", [], [], [], [], []⟩

/-- A request with both bodies, a caller-supplied Message-ID and one
attachment: an encode that draws exactly the two boundaries. -/
def optsTwoBoundaries : mailOptions :=
  ⟨str "a@b.com", [str "c@d.com"], [], [], [], str "Hi", str "Plain", str "<p>x</p>", [], [],
    [(str "Message-ID", str "<my@id>")],
    [⟨str "f.txt", str "f.txt", str "text/plain", [104, 105]⟩]⟩

/-- A fully resolved attachment fixture with one hundred data bytes. -/
def attW : mailAttachment :=
  ⟨str "f.bin", str "f.bin", str "application/octet-stream", List.range 100⟩

/-- The base request carrying one arbitrary additional header entry and a
caller-supplied Message-ID entry. -/
def optsHdr (k v : List Nat) : mailOptions :=
  ⟨str "a@b.com", [str "c@d.com"], [], [], [], str "Hi", str "Hello", [], [],
    [], [(k, v), (str "Message-ID", str "<x@y>")], []⟩

theorem writeAdditionalHeaders_ok_append :
    ∀ (hs : List (List Nat × List Nat)) (b b2 : List Nat),
      writeAdditionalHeaders b hs = .ok b2 → ∃ t, b2 = b ++ t := by
  intro hs
  induction hs with
  | nil =>
    intro b b2 h
    simp [writeAdditionalHeaders] at h
    exact ⟨[], by simp [h]⟩
  | cons kv rest ih =>
    intro b b2 h
    obtain ⟨k, v⟩ := kv
    by_cases hk : (!(trimSpace k).isEmpty && !(trimSpace v).isEmpty) = true
    · by_cases hv : validateHeaderValue v = true
      · rw [writeAdditionalHeaders, if_pos hk, if_pos hv] at h
        obtain ⟨t, ht⟩ := ih (b ++ headerLine k v) b2 h
        exact ⟨headerLine k v ++ t, by simp [ht]⟩
      · rw [writeAdditionalHeaders, if_pos hk, if_neg hv] at h
        exact absurd h (by simp)
    · rw [writeAdditionalHeaders, if_neg hk] at h
      exact ih b b2 h

theorem bodyStage_ok_append (env : Env) (ent : List Nat) (opts : mailOptions)
    (hdr m : List Nat) (h : bodyStage env ent opts hdr = .ok m) : ∃ t, m = hdr ++ t := by
  unfold bodyStage at h
  split at h
  · split at h
    · split at h
      · exact Except.noConfusion h
      · injection h with h2
        simp only [List.append_assoc] at h2
        exact ⟨_, h2.symm⟩
    · split at h
      · injection h with h2
        simp only [List.append_assoc] at h2
        exact ⟨_, h2.symm⟩
      · injection h with h2
        simp only [List.append_assoc] at h2
        exact ⟨_, h2.symm⟩
  · split at h
    · exact Except.noConfusion h
    · split at h
      · exact Except.noConfusion h
      · split at h
        · exact Except.noConfusion h
        · injection h with h2
          simp only [List.append_assoc] at h2
          exact ⟨_, h2.symm⟩

theorem headerStage_ok_shape (env : Env) (ent : List Nat) (opts : mailOptions)
    (hdr ent1 : List Nat) (h : headerStage env ent opts = .ok (hdr, ent1)) :
    ∃ mid t, messageIDHeaderPart ent opts = .ok (mid, ent1) ∧
      hdr = headersBeforeMid env opts ++ mid ++ t := by
  unfold headerStage at h
  split at h
  · exact Except.noConfusion h
  · split at h
    · exact Except.noConfusion h
    · split at h
      · exact Except.noConfusion h
      · split at h
        · exact Except.noConfusion h
        · split at h
          · exact Except.noConfusion h
          · split at h
            · exact Except.noConfusion h
            · split at h
              · exact Except.noConfusion h
              · split at h
                · exact Except.noConfusion h
                · rename_i mid0 entA hmres
                  unfold headerStageTail at h
                  split at h
                  · exact Except.noConfusion h
                  · split at h
                    · exact Except.noConfusion h
                    · split at h <;> rename_i wres hwres
                      · exact Except.noConfusion h
                      · injection h with h1
                        injection h1 with hhdr hent
                        obtain ⟨t, ht⟩ :=
                          writeAdditionalHeaders_ok_append opts.AdditionalHeaders _ _ hwres
                        refine ⟨mid0, headerLine (str "MIME-Version") (str "1.0")
                          ++ ((if (trimSpace opts.InReplyTo).isEmpty then []
                              else headerLine (str "In-Reply-To") (trimSpace opts.InReplyTo))
                          ++ ((if (trimSpace opts.References).isEmpty then []
                              else headerLine (str "References") (trimSpace opts.References))
                          ++ t)), ?_, ?_⟩
                        · rw [hmres, hent]
                        · rw [← hhdr, ht]
                          simp only [List.append_assoc]

theorem buildRFC822_ok_decomp (env : Env) (ent : List Nat) (opts : mailOptions)
    (m : List Nat) (h : buildRFC822 env ent opts = .ok m) :
    ∃ ent1 mid t, messageIDHeaderPart ent opts = .ok (mid, ent1) ∧
      m = headersBeforeMid env opts ++ mid ++ t := by
  unfold buildRFC822 at h
  split at h
  · exact Except.noConfusion h
  · rename_i hdr0 entA hhs
    obtain ⟨t1, ht1⟩ := bodyStage_ok_append env entA opts hdr0 m h
    obtain ⟨mid, t2, hmid, hhdr⟩ := headerStage_ok_shape env ent opts hdr0 entA hhs
    refine ⟨entA, mid, t2 ++ t1, hmid, ?_⟩
    rw [ht1, hhdr]
    simp only [List.append_assoc]

theorem messageIDHeaderPart_ok (ent : List Nat) (opts : mailOptions)
    (hlen : 16 ≤ ent.length) :
    ∃ mid ent1, messageIDHeaderPart ent opts = .ok (mid, ent1) := by
  unfold messageIDHeaderPart
  split
  · exact ⟨[], ent, rfl⟩
  · simp [randRead, hlen]

theorem goQuoteByte_plain (c : Nat) (h1 : 32 ≤ c ∧ c ≤ 126) (h2 : c ≠ 34) (h3 : c ≠ 92) :
    goQuoteByte c = [c] := by
  unfold goQuoteByte
  rw [if_neg (by omega), if_pos h1]

theorem flatMap_goQuoteByte_plain :
    ∀ s : List Nat, (∀ c ∈ s, (32 ≤ c ∧ c ≤ 126) ∧ c ≠ 34 ∧ c ≠ 92) →
      s.flatMap goQuoteByte = s
  | [], _ => rfl
  | a :: rest, h => by
    rw [List.flatMap_cons,
      goQuoteByte_plain a (h a (by simp)).1 (h a (by simp)).2.1 (h a (by simp)).2.2,
      flatMap_goQuoteByte_plain rest (fun c hc => h c (by simp [hc]))]
    rfl

theorem goQuote_plain (s : List Nat)
    (h : ∀ c ∈ s, (32 ≤ c ∧ c ≤ 126) ∧ c ≠ 34 ∧ c ≠ 92) :
    goQuote s = 34 :: (s ++ [34]) := by
  unfold goQuote
  rw [flatMap_goQuoteByte_plain s h, List.cons_append]

theorem rfc5987Encode_no_plus (s : List Nat) : 43 ∉ rfc5987Encode s := by
  unfold rfc5987Encode
  intro hmem
  rw [List.mem_flatMap] at hmem
  obtain ⟨b, hb, hmem2⟩ := hmem
  by_cases hb43 : b = 43
  · rw [if_pos hb43] at hmem2
    simp at hmem2
  · rw [if_neg hb43] at hmem2
    simp at hmem2
    exact hb43 hmem2.symm

/-- Claim C7 counterexample: a pure-ASCII, non-blank filename containing
a double quote is not emitted in the claimed verbatim form, because the
source quotes the name with the escaping %q verb. -/
theorem claim7_counterexample :
    isASCII (trimSpace (str "a\"b")) = true ∧ (trimSpace (str "a\"b")).isEmpty = false ∧
    contentDispositionFilename (str "a\"b")
      ≠ str "filename=" ++ [34] ++ str "a\"b" ++ [34] := by
  decide

/-- Claim C7 (amended): the Content-Disposition filename parameter is the
literal quoted attachment fallback when the trimmed filename is blank;
for a pure ASCII non-blank trimmed filename it is the name quoted by the
Go %q verb, which is the claimed verbatim quoted form whenever the name
has no double quote, backslash or non-printable byte; for a filename with
a non-ASCII byte it is the RFC 5987 extended form with query-string
escaping in which spaces are %20 and no plus sign ever occurs. -/
theorem claim7_filename_parameter_amended (fn : List Nat) :
    ((trimSpace fn).isEmpty = true →
      contentDispositionFilename fn = str "filename=" ++ [34] ++ str "attachment" ++ [34]) ∧
    ((trimSpace fn).isEmpty = false → isASCII (trimSpace fn) = true →
      contentDispositionFilename fn = str "filename=" ++ goQuote (trimSpace fn) ∧
      ((∀ c ∈ trimSpace fn, (32 ≤ c ∧ c ≤ 126) ∧ c ≠ 34 ∧ c ≠ 92) →
        contentDispositionFilename fn
          = str "filename=" ++ (34 :: (trimSpace fn ++ [34])))) ∧
    (isASCII (trimSpace fn) = false →
      contentDispositionFilename fn
          = str "filename*=UTF-8" ++ [39, 39] ++ rfc5987Encode (trimSpace fn) ∧
      43 ∉ rfc5987Encode (trimSpace fn)) := by
  refine ⟨?_, ?_, ?_⟩
  · intro h
    unfold contentDispositionFilename
    rw [if_pos h]
  · intro h1 h2
    unfold contentDispositionFilename
    rw [if_neg (by simp [h1]), if_pos h2]
    exact ⟨rfl, fun hs => by rw [goQuote_plain _ hs]⟩
  · intro h
    have hne : (trimSpace fn).isEmpty = false := by
      cases he : (trimSpace fn).isEmpty
      · rfl
      · rw [List.isEmpty_iff] at he
        rw [he] at h
        simp [isASCII] at h
    unfold contentDispositionFilename
    rw [if_neg (by simp [hne]), if_neg (by simp [h])]
    exact ⟨rfl, rfc5987Encode_no_plus _⟩

/-- Claim C7 witness: the three branches at concrete filenames. -/
theorem claim7_witness :
    contentDispositionFilename (str "  ")
        = str "filename=" ++ [34] ++ str "attachment" ++ [34] ∧
    contentDispositionFilename (str "report.bin")
        = str "filename=" ++ (34 :: (str "report.bin" ++ [34])) ∧
    contentDispositionFilename (str "Grüße.txt")
        = str "filename*=UTF-8" ++ [39, 39] ++ rfc5987Encode (trimSpace (str "Grüße.txt")) :=
  ⟨(claim7_filename_parameter_amended (str "  ")).1 (by decide),
    ((claim7_filename_parameter_amended (str "report.bin")).2.1 (by decide) (by decide)).2
      (by decide),
    ((claim7_filename_parameter_amended (str "Grüße.txt")).2.2 (by decide)).1⟩

/-- Claim C4: encode fails with a MissingField error when From is blank
after trimming, the To list is empty, or Subject is blank after trimming;
and every successful encode has a non-blank From, a non-empty To list and
a non-blank Subject. -/
theorem claim4_missing_fields (env : Env) (ent : List Nat) (opts : mailOptions) :
    (((trimSpace opts.From).isEmpty = true ∨ opts.To.isEmpty = true ∨
        (trimSpace opts.Subject).isEmpty = true) →
      ∃ e, buildRFC822 env ent opts = .error e ∧ e.isMissingField = true) ∧
    (∀ m, buildRFC822 env ent opts = .ok m →
      (trimSpace opts.From).isEmpty = false ∧ opts.To.isEmpty = false ∧
        (trimSpace opts.Subject).isEmpty = false) := by
  constructor
  · intro hmiss
    by_cases h1 : (trimSpace opts.From).isEmpty = true
    · exact ⟨.missingFrom, by simp [buildRFC822, headerStage, h1], rfl⟩
    · by_cases h2 : opts.To.isEmpty = true
      · exact ⟨.missingTo, by simp [buildRFC822, headerStage, h1, h2], rfl⟩
      · by_cases h3 : (trimSpace opts.Subject).isEmpty = true
        · exact ⟨.missingSubject, by simp [buildRFC822, headerStage, h1, h2, h3], rfl⟩
        · rcases hmiss with h | h | h
          · exact absurd h h1
          · exact absurd h h2
          · exact absurd h h3
  · intro m hm
    have h1 : (trimSpace opts.From).isEmpty = false := by
      cases h1 : (trimSpace opts.From).isEmpty
      · rfl
      · simp [buildRFC822, headerStage, h1] at hm
    have h2 : opts.To.isEmpty = false := by
      cases h2 : opts.To.isEmpty
      · rfl
      · simp [buildRFC822, headerStage, h1, h2] at hm
    have h3 : (trimSpace opts.Subject).isEmpty = false := by
      cases h3 : (trimSpace opts.Subject).isEmpty
      · rfl
      · simp [buildRFC822, headerStage, h1, h2, h3] at hm
    exact ⟨h1, h2, h3⟩

/-- Claim C4 witness: the empty-From request fails with a MissingField
error. -/
theorem claim4_witness :
    ∃ e, buildRFC822 env0 ent16 optsNoFrom = .error e ∧ e.isMissingField = true :=
  (claim4_missing_fields env0 ent16 optsNoFrom).1 (Or.inl (by decide))

/-- Claim C9: the attachment loop resolves blank fields into a copy used
for emission (Go range-copy semantics) and returns the caller's
attachment array unchanged, element for element. -/
theorem claim9_no_mutation (env : Env) (bnd : List Nat) :
    ∀ (arr : List mailAttachment) (p : List mailAttachment × List Nat),
      writeAttachments env bnd arr = .ok p → p.1 = arr := by
  intro arr
  induction arr with
  | nil =>
    intro p hp
    rw [writeAttachments] at hp
    injection hp with h1
    rw [← h1]
  | cons a rest ih =>
    intro p hp
    rw [writeAttachments] at hp
    split at hp
    · exact Except.noConfusion hp
    · rename_i r hr
      split at hp
      · exact Except.noConfusion hp
      · rename_i restArr restBytes hrest
        injection hp with h1
        rw [← h1]
        exact congrArg (fun l => a :: l) (ih (restArr, restBytes) hrest)

/-- Claim C9 witness: one concrete attachment array comes back unchanged
from a successful emission. -/
theorem claim9_witness :
    ((writeAttachments env0 (str "b") [attW]).toOption.getD ([], [])).1 = [attW] :=
  claim9_no_mutation env0 (str "b") [attW]
    ((writeAttachments env0 (str "b") [attW]).toOption.getD ([], [])) (by rfl)

/-- Claim C5: an all-ASCII subject passes through encode-if-needed
verbatim; a subject with a byte at or above 0x80 becomes an RFC 2047
encoded word opening with the utf-8 Q prefix; and every successful
encode emits the Subject header line built from encode-if-needed. -/
theorem claim5_subject_encoding :
    (∀ v : List Nat, (isASCII v = true → encodeHeaderIfNeeded v = v) ∧
      (isASCII v = false → ∃ rest, encodeHeaderIfNeeded v = str "=?utf-8?" ++ rest)) ∧
    (∀ (env : Env) (ent : List Nat) (opts : mailOptions) (m : List Nat),
      buildRFC822 env ent opts = .ok m →
      ∃ s t, m = s ++ headerLine (str "Subject") (encodeHeaderIfNeeded opts.Subject) ++ t) := by
  constructor
  · intro v
    constructor
    · intro h
      unfold encodeHeaderIfNeeded
      rw [if_pos h]
    · intro h
      unfold encodeHeaderIfNeeded qEncode
      rw [if_neg (by simp [h])]
      refine ⟨str "q?" ++ v.flatMap qEncodeByte ++ str "?=", ?_⟩
      have hsplit : str "=?utf-8?q?" = str "=?utf-8?" ++ str "q?" := rfl
      rw [hsplit]
      simp only [List.append_assoc]
  · intro env ent opts m hm
    obtain ⟨ent1, mid, t, hmid, hm2⟩ := buildRFC822_ok_decomp env ent opts m hm
    refine ⟨headerLine (str "From") opts.From ++ headerLine (str "To") (joinComma opts.To)
      ++ (if opts.Cc.isEmpty then [] else headerLine (str "Cc") (joinComma opts.Cc))
      ++ (if opts.Bcc.isEmpty then [] else headerLine (str "Bcc") (joinComma opts.Bcc))
      ++ (if (trimSpace opts.ReplyTo).isEmpty then []
          else headerLine (str "Reply-To") (trimSpace opts.ReplyTo)),
      headerLine (str "Date") env.now ++ (mid ++ t), ?_⟩
    rw [hm2]
    unfold headersBeforeMid
    simp only [List.append_assoc]

/-- Claim C5 witness: the ASCII subject passes verbatim and the non-ASCII
subject opens with the utf-8 encoded-word prefix; a concrete successful
encode contains its Subject header line. -/
theorem claim5_witness :
    encodeHeaderIfNeeded (str "Hi") = str "Hi" ∧
    (∃ rest, encodeHeaderIfNeeded (str "Grüße") = str "=?utf-8?" ++ rest) ∧
    (∃ s t, okBytes (buildRFC822 env0 ent16 optsBase)
      = s ++ headerLine (str "Subject") (encodeHeaderIfNeeded optsBase.Subject) ++ t) :=
  ⟨(claim5_subject_encoding.1 (str "Hi")).1 (by decide),
    (claim5_subject_encoding.1 (str "Grüße")).2 (by decide),
    claim5_subject_encoding.2 env0 ent16 optsBase
      (okBytes (buildRFC822 env0 ent16 optsBase)) (by rfl)⟩

/-- Claim C6: in every successful encode the header block carries a
Message-ID segment exactly when the caller's additional headers contain
no case-insensitive Message-ID key: with such a key the segment is empty
and no entropy is drawn; without one the segment is the generated
Message-ID header line built from sixteen drawn random bytes. -/
theorem claim6_message_id (env : Env) (ent : List Nat) (opts : mailOptions) (m : List Nat)
    (hm : buildRFC822 env ent opts = .ok m) :
    ∃ mid ent1 t, messageIDHeaderPart ent opts = .ok (mid, ent1) ∧
      m = headersBeforeMid env opts ++ mid ++ t ∧
      (hasHeader opts.AdditionalHeaders (str "Message-ID") = true →
        mid = [] ∧ ent1 = ent) ∧
      (hasHeader opts.AdditionalHeaders (str "Message-ID") = false →
        ∃ bs, randRead 16 ent = some (bs, ent1) ∧
          mid = headerLine (str "Message-ID") (formatMessageID bs opts.From)) := by
  obtain ⟨ent1, mid, t, hmid, hm2⟩ := buildRFC822_ok_decomp env ent opts m hm
  refine ⟨mid, ent1, t, hmid, hm2, ?_, ?_⟩
  · intro hh
    unfold messageIDHeaderPart at hmid
    rw [if_pos (by simp [hh])] at hmid
    injection hmid with h1
    injection h1 with hmid1 hent1
    exact ⟨hmid1.symm, hent1.symm⟩
  · intro hh
    have hh2 : hasHeader opts.AdditionalHeaders (str "Message-Id") = false := by
      have heq : hasHeader opts.AdditionalHeaders (str "Message-Id")
          = hasHeader opts.AdditionalHeaders (str "Message-ID") := rfl
      rw [heq, hh]
    unfold messageIDHeaderPart at hmid
    rw [if_neg (by simp [hh, hh2])] at hmid
    split at hmid
    · exact Except.noConfusion hmid
    · rename_i bs rest hrand
      injection hmid with h1
      injection h1 with hmid1 hent1
      exact ⟨bs, by rw [hrand, hent1], hmid1.symm⟩

/-- Claim C6 witness: a concrete request without a caller Message-ID key
carries the generated Message-ID segment. -/
theorem claim6_witness :
    ∃ mid ent1 t, messageIDHeaderPart ent16 optsBase = .ok (mid, ent1) ∧
      okBytes (buildRFC822 env0 ent16 optsBase)
        = headersBeforeMid env0 optsBase ++ mid ++ t ∧
      (hasHeader optsBase.AdditionalHeaders (str "Message-ID") = true →
        mid = [] ∧ ent1 = ent16) ∧
      (hasHeader optsBase.AdditionalHeaders (str "Message-ID") = false →
        ∃ bs, randRead 16 ent16 = some (bs, ent1) ∧
          mid = headerLine (str "Message-ID") (formatMessageID bs optsBase.From)) :=
  claim6_message_id env0 ent16 optsBase (okBytes (buildRFC822 env0 ent16 optsBase)) (by rfl)

theorem b64url_decode_encode_char : ∀ n, n < 64 → b64urlDecodeChar (b64urlChar n) = n := by
  decide

theorem decodeRawURL_encode :
    ∀ bs : List Nat, (∀ b ∈ bs, b < 256) → decodeRawURL (base64RawURL bs) = bs
  | [], _ => rfl
  | [b0], h => by
    have hb0 : b0 < 256 := h b0 (by simp)
    simp only [base64RawURL, decodeRawURL]
    rw [b64url_decode_encode_char _ (by omega), b64url_decode_encode_char _ (by omega)]
    congr 1
    omega
  | [b0, b1], h => by
    have hb0 : b0 < 256 := h b0 (by simp)
    have hb1 : b1 < 256 := h b1 (by simp)
    simp only [base64RawURL, decodeRawURL]
    rw [b64url_decode_encode_char _ (by omega), b64url_decode_encode_char _ (by omega),
      b64url_decode_encode_char _ (by omega)]
    simp only [List.cons.injEq, and_true]
    exact ⟨by omega, by omega⟩
  | b0 :: b1 :: b2 :: c :: rest, h => by
    have hb0 : b0 < 256 := h b0 (by simp)
    have hb1 : b1 < 256 := h b1 (by simp)
    have hb2 : b2 < 256 := h b2 (by simp)
    have ih := decodeRawURL_encode (c :: rest) (fun b hb => h b (by simp at hb ⊢; tauto))
    simp only [base64RawURL, decodeRawURL] at ih ⊢
    rw [b64url_decode_encode_char _ (by omega), b64url_decode_encode_char _ (by omega),
      b64url_decode_encode_char _ (by omega), b64url_decode_encode_char _ (by omega)]
    rw [ih]
    simp only [List.cons.injEq, and_true]
    exact ⟨by omega, by omega, by omega⟩
  | [b0, b1, b2], h => by
    have hb0 : b0 < 256 := h b0 (by simp)
    have hb1 : b1 < 256 := h b1 (by simp)
    have hb2 : b2 < 256 := h b2 (by simp)
    simp only [base64RawURL, decodeRawURL]
    rw [b64url_decode_encode_char _ (by omega), b64url_decode_encode_char _ (by omega),
      b64url_decode_encode_char _ (by omega), b64url_decode_encode_char _ (by omega)]
    simp only [List.cons.injEq, and_true]
    exact ⟨by omega, by omega, by omega⟩

/-- Claim C3 counterexample: with an entropy stream whose two 18-byte
draws are equal, one successful encode uses the same boundary token for
the outer multipart/mixed envelope and the inner multipart/alternative
region, so boundaries can repeat within one message. -/
theorem claim3_counterexample :
    isOkB (buildRFC822 env0 ent36zero optsTwoBoundaries) = true ∧
    hasSub (str "multipart/mixed; boundary="
        ++ goQuote (randomBoundary (List.replicate 18 0)))
      (okBytes (buildRFC822 env0 ent36zero optsTwoBoundaries)) = true ∧
    hasSub (str "multipart/alternative; boundary="
        ++ goQuote (randomBoundary (List.replicate 18 0)))
      (okBytes (buildRFC822 env0 ent36zero optsTwoBoundaries)) = true := by
  decide

/-- Claim C3 (amended): two boundaries generated within one encode differ
whenever the two independent 18-byte draws they are computed from differ:
the boundary generator is injective on byte lists, so only the
cryptographically negligible event of equal draws produces a collision. -/
theorem claim3_boundary_injective (d1 d2 : List Nat)
    (h1 : ∀ b ∈ d1, b < 256) (h2 : ∀ b ∈ d2, b < 256) (hne : d1 ≠ d2) :
    randomBoundary d1 ≠ randomBoundary d2 := by
  intro heq
  apply hne
  unfold randomBoundary at heq
  have henc : base64RawURL d1 = base64RawURL d2 := by
    have := congrArg (fun l => l.drop (str "gogcli_").length) heq
    simpa using this
  have hdec := congrArg decodeRawURL henc
  rw [decodeRawURL_encode d1 h1, decodeRawURL_encode d2 h2] at hdec
  exact hdec

/-- Claim C3 witness: two concrete distinct 18-byte draws give distinct
boundary tokens. -/
theorem claim3_witness :
    randomBoundary (List.replicate 18 0) ≠ randomBoundary (1 :: List.replicate 17 0) :=
  claim3_boundary_injective (List.replicate 18 0) (1 :: List.replicate 17 0)
    (by decide) (by decide) (by decide)

theorem b64char_ge (n : Nat) : 43 ≤ b64char n := by
  unfold b64char
  split_ifs <;> omega

theorem base64Std_mem_ge :
    ∀ bs : List Nat, ∀ c ∈ base64Std bs, 43 ≤ c
  | b0 :: b1 :: b2 :: rest => by
    intro c hc
    simp only [base64Std, List.mem_cons] at hc
    rcases hc with h | h | h | h | h
    · rw [h]; exact b64char_ge _
    · rw [h]; exact b64char_ge _
    · rw [h]; exact b64char_ge _
    · rw [h]; exact b64char_ge _
    · exact base64Std_mem_ge rest c h
  | [b0, b1] => by
    intro c hc
    simp only [base64Std, List.mem_cons, List.not_mem_nil, or_false] at hc
    rcases hc with h | h | h | h
    · rw [h]; exact b64char_ge _
    · rw [h]; exact b64char_ge _
    · rw [h]; exact b64char_ge _
    · omega
  | [b0] => by
    intro c hc
    simp only [base64Std, List.mem_cons, List.not_mem_nil, or_false] at hc
    rcases hc with h | h | h | h
    · rw [h]; exact b64char_ge _
    · rw [h]; exact b64char_ge _
    · omega
    · omega
  | [] => by
    intro c hc
    simp [base64Std] at hc

theorem chunksLoop_ne_nil (f : Nat) (s : List Nat) : chunksLoop f s ≠ [] := by
  cases f
  · simp [chunksLoop]
  · unfold chunksLoop
    split <;> simp

theorem joinCRLF_cons (l : List Nat) (ls : List (List Nat)) (h : ls ≠ []) :
    joinCRLF (l :: ls) = l ++ crlf ++ joinCRLF ls := by
  cases ls
  · exact absurd rfl h
  · rfl

theorem chunkLoop_eq_joinCRLF (f : Nat) : ∀ s, chunkLoop f s = joinCRLF (chunksLoop f s) := by
  induction f with
  | zero => intro s; rfl
  | succ f ih =>
    intro s
    unfold chunkLoop chunksLoop
    split
    · rw [joinCRLF_cons _ _ (chunksLoop_ne_nil f _), ih]
    · rfl

theorem chunksLoop_flatten (f : Nat) : ∀ s, (chunksLoop f s).flatten = s := by
  induction f with
  | zero => intro s; simp [chunksLoop]
  | succ f ih =>
    intro s
    unfold chunksLoop
    split
    · simp [ih]
    · simp

theorem chunksLoop_length_le (f : Nat) : ∀ s : List Nat, s.length ≤ f →
    ∀ l ∈ chunksLoop f s, l.length ≤ 76 := by
  induction f with
  | zero =>
    intro s hs l hl
    simp [chunksLoop] at hl
    rw [hl]
    omega
  | succ f ih =>
    intro s hs l hl
    unfold chunksLoop at hl
    split at hl
    · rename_i hlen
      simp only [List.mem_cons] at hl
      rcases hl with h | h
      · rw [h]
        simp [List.length_take]
      · exact ih (s.drop 76) (by simp [List.length_drop]; omega) l h
    · rename_i hlen
      simp at hl
      rw [hl]
      omega

theorem chunksLoop_mem_subset (f : Nat) :
    ∀ s : List Nat, ∀ l ∈ chunksLoop f s, ∀ c ∈ l, c ∈ s := by
  induction f with
  | zero =>
    intro s l hl c hc
    simp [chunksLoop] at hl
    rw [hl] at hc
    exact hc
  | succ f ih =>
    intro s l hl c hc
    unfold chunksLoop at hl
    split at hl
    · simp only [List.mem_cons] at hl
      rcases hl with h | h
      · rw [h] at hc
        exact List.take_subset _ _ hc
      · exact List.drop_subset _ _ (ih (s.drop 76) l h c hc)
    · simp at hl
      rw [hl] at hc
      exact hc

/-- Claim C8: the bytes emitted for a resolved attachment are its headers
followed by the base64 encoding of its data hard-wrapped into CRLF-joined
lines and a trailing CRLF; every wrapped line has at most 76 bytes, every
line byte is a base64 byte (at least 43, hence never CR or LF), and the
lines concatenate back to the full base64 encoding. -/
theorem claim8_attachment_payload (bnd : List Nat) (a : mailAttachment) :
    attachmentPart bnd a
      = crlf ++ str "--" ++ bnd ++ crlf
        ++ str "Content-Type: " ++ a.MIMEType ++ crlf
        ++ str "Content-Transfer-Encoding: base64" ++ crlf
        ++ str "Content-Disposition: attachment; " ++ contentDispositionFilename a.Filename
        ++ crlf ++ crlf
        ++ wrapBase64 a.Data ++ crlf ∧
    wrapBase64 a.Data = joinCRLF (b64Lines a.Data) ∧
    (∀ l ∈ b64Lines a.Data, l.length ≤ 76 ∧ ∀ c ∈ l, 43 ≤ c) ∧
    (b64Lines a.Data).flatten = base64Std a.Data := by
  refine ⟨rfl, chunkLoop_eq_joinCRLF _ _, ?_, chunksLoop_flatten _ _⟩
  intro l hl
  exact ⟨chunksLoop_length_le _ _ (le_refl _) l hl,
    fun c hc => base64Std_mem_ge a.Data c (chunksLoop_mem_subset _ _ l hl c hc)⟩

/-- Claim C8 witness: the wrapped payload of a concrete 100-byte
attachment, whose first line is exactly 76 bytes long. -/
theorem claim8_witness :
    wrapBase64 attW.Data = joinCRLF (b64Lines attW.Data) ∧
    ((base64Std (List.range 100)).take 76).length ≤ 76 ∧
    (b64Lines attW.Data).flatten = base64Std attW.Data :=
  ⟨(claim8_attachment_payload (str "b") attW).2.1,
    ((claim8_attachment_payload (str "b") attW).2.2.1
      ((base64Std (List.range 100)).take 76) (by decide)).1,
    (claim8_attachment_payload (str "b") attW).2.2.2⟩

/-- Claim C10: additional-header keys are never validated for CR or LF.
For every key containing a CR or LF byte (non-blank after trimming) and
every non-blank CR/LF-free value, encoding the fixture request that
carries this entry succeeds, and the key bytes appear verbatim in the
emitted header block as the written header line. -/
theorem claim10_header_names_unvalidated (k v : List Nat)
    (_hk : (k.contains 13 || k.contains 10) = true)
    (hk2 : (trimSpace k).isEmpty = false)
    (hv1 : (trimSpace v).isEmpty = false)
    (hv2 : validateHeaderValue v = true) :
    ∃ s t, buildRFC822 env0 [] (optsHdr k v) = .ok (s ++ headerLine k v ++ t) := by
  have hcond : (hasHeader (optsHdr k v).AdditionalHeaders (str "Message-ID")
      || hasHeader (optsHdr k v).AdditionalHeaders (str "Message-Id")) = true := by
    show (List.any [(k, v), (str "Message-ID", str "<x@y>")]
        (fun kv => asciiEqualFold kv.1 (str "Message-ID"))
      || List.any [(k, v), (str "Message-ID", str "<x@y>")]
        (fun kv => asciiEqualFold kv.1 (str "Message-Id"))) = true
    simp only [List.any_cons, List.any_nil]
    rw [show asciiEqualFold (str "Message-ID") (str "Message-ID") = true from by decide,
      show asciiEqualFold (str "Message-ID") (str "Message-Id") = true from by decide]
    simp
  have hmid : messageIDHeaderPart [] (optsHdr k v) = .ok ([], []) := by
    unfold messageIDHeaderPart
    rw [if_pos hcond]
  have hfix : ∀ b : List Nat,
      writeAdditionalHeaders b [(k, v), (str "Message-ID", str "<x@y>")]
        = .ok (b ++ headerLine k v ++ headerLine (str "Message-ID") (str "<x@y>")) := by
    intro b
    rw [writeAdditionalHeaders, if_pos (by rw [hk2, hv1]; rfl), if_pos hv2,
      writeAdditionalHeaders, if_pos (by decide), if_pos (by decide), writeAdditionalHeaders]
  have e1 : headerStage env0 [] (optsHdr k v) = headerStageTail env0 (optsHdr k v) [] [] := by
    unfold headerStage
    rw [hmid]
    rfl
  have hheadok : headerStage env0 [] (optsHdr k v)
      = .ok ((headersBeforeMid env0 (optsHdr k v) ++ []
          ++ headerLine (str "MIME-Version") (str "1.0") ++ [] ++ [])
          ++ headerLine k v ++ headerLine (str "Message-ID") (str "<x@y>"), []) := by
    rw [e1]
    unfold headerStageTail
    rw [if_neg (show ¬((!(trimSpace (optsHdr k v).InReplyTo).isEmpty
        && !validateHeaderValue (optsHdr k v).InReplyTo) = true) from by
      rw [show (!(trimSpace (optsHdr k v).InReplyTo).isEmpty
        && !validateHeaderValue (optsHdr k v).InReplyTo) = false from rfl]
      exact Bool.false_ne_true),
      if_neg (show ¬((!(trimSpace (optsHdr k v).References).isEmpty
        && !validateHeaderValue (optsHdr k v).References) = true) from by
      rw [show (!(trimSpace (optsHdr k v).References).isEmpty
        && !validateHeaderValue (optsHdr k v).References) = false from rfl]
      exact Bool.false_ne_true),
      show (optsHdr k v).AdditionalHeaders = [(k, v), (str "Message-ID", str "<x@y>")] from rfl,
      hfix]
    rfl
  have hbody : ∀ hdr : List Nat, bodyStage env0 [] (optsHdr k v) hdr
      = .ok (hdr ++ headerLine (str "Content-Type") (str "text/plain; charset=\"utf-8\"")
        ++ headerLine (str "Content-Transfer-Encoding") (str "7bit") ++ crlf
        ++ bodyWithTrailingCRLF (normalizeCRLF (optsHdr k v).Body)) := by
    intro hdr
    unfold bodyStage
    rw [if_pos (show (optsHdr k v).Attachments.isEmpty = true from rfl),
      if_neg (show ¬(hasPlainB (optsHdr k v) && hasHTMLB (optsHdr k v)) = true from by
        rw [show (hasPlainB (optsHdr k v) && hasHTMLB (optsHdr k v)) = false from rfl]
        exact Bool.false_ne_true),
      if_neg (show ¬(hasHTMLB (optsHdr k v) && !hasPlainB (optsHdr k v)) = true from by
        rw [show (hasHTMLB (optsHdr k v) && !hasPlainB (optsHdr k v)) = false from rfl]
        exact Bool.false_ne_true)]
  have hfinal : buildRFC822 env0 [] (optsHdr k v)
      = .ok (((headersBeforeMid env0 (optsHdr k v) ++ []
          ++ headerLine (str "MIME-Version") (str "1.0") ++ [] ++ [])
          ++ headerLine k v ++ headerLine (str "Message-ID") (str "<x@y>"))
          ++ headerLine (str "Content-Type") (str "text/plain; charset=\"utf-8\"")
          ++ headerLine (str "Content-Transfer-Encoding") (str "7bit") ++ crlf
          ++ bodyWithTrailingCRLF (normalizeCRLF (optsHdr k v).Body)) := by
    unfold buildRFC822
    rw [hheadok]
    show bodyStage env0 [] (optsHdr k v)
      ((headersBeforeMid env0 (optsHdr k v) ++ []
        ++ headerLine (str "MIME-Version") (str "1.0") ++ [] ++ [])
        ++ headerLine k v ++ headerLine (str "Message-ID") (str "<x@y>")) = _
    rw [hbody]
  refine ⟨headersBeforeMid env0 (optsHdr k v) ++ headerLine (str "MIME-Version") (str "1.0"),
    headerLine (str "Message-ID") (str "<x@y>")
      ++ headerLine (str "Content-Type") (str "text/plain; charset=\"utf-8\"")
      ++ headerLine (str "Content-Transfer-Encoding") (str "7bit") ++ crlf
      ++ bodyWithTrailingCRLF (normalizeCRLF (optsHdr k v).Body), ?_⟩
  refine Eq.trans hfinal (congrArg Except.ok ?_)
  simp only [List.append_assoc, List.append_nil]

/-- Claim C10 witness: a key with an embedded CR passes through encoding
verbatim. -/
theorem claim10_witness :
    ∃ s t, buildRFC822 env0 [] (optsHdr (str "X\rY") (str "v"))
      = .ok (s ++ headerLine (str "X\rY") (str "v") ++ t) :=
  claim10_header_names_unvalidated (str "X\rY") (str "v")
    (by decide) (by decide) (by decide) (by decide)

theorem writeAdditionalHeaders_err :
    ∀ (hs : List (List Nat × List Nat)) (b : List Nat),
      (∃ kv ∈ hs, (trimSpace kv.1).isEmpty = false ∧ (trimSpace kv.2).isEmpty = false ∧
        validateHeaderValue kv.2 = false) →
      ∃ e, writeAdditionalHeaders b hs = .error e ∧ e.isInvalidHeaderValue = true := by
  intro hs
  induction hs with
  | nil =>
    intro b h
    simp at h
  | cons kv rest ih =>
    intro b h
    obtain ⟨k, v⟩ := kv
    by_cases hcond : (!(trimSpace k).isEmpty && !(trimSpace v).isEmpty) = true
    · by_cases hval : validateHeaderValue v = true
      · rw [writeAdditionalHeaders, if_pos hcond, if_pos hval]
        apply ih
        obtain ⟨kv0, hkv0mem, p1, p2, p3⟩ := h
        rcases List.mem_cons.mp hkv0mem with heq | hmem
        · exfalso
          rw [heq] at p3
          simp only at p3
          rw [hval] at p3
          exact Bool.noConfusion p3
        · exact ⟨kv0, hmem, p1, p2, p3⟩
      · replace hval : validateHeaderValue v = false := by
          cases hv0 : validateHeaderValue v
          · rfl
          · exact absurd hv0 hval
        refine ⟨.invalidHeader k, ?_, rfl⟩
        rw [writeAdditionalHeaders, if_pos hcond, if_neg (by simp [hval])]
    · rw [writeAdditionalHeaders, if_neg hcond]
      apply ih
      obtain ⟨kv0, hkv0mem, p1, p2, p3⟩ := h
      rcases List.mem_cons.mp hkv0mem with heq | hmem
      · exfalso
        rw [heq] at p1 p2
        simp only at p1 p2
        exact hcond (by rw [p1, p2]; rfl)
      · exact ⟨kv0, hmem, p1, p2, p3⟩

/-- Claim C1 counterexample: a Reply-To consisting of a single CR byte is
a header-bound value containing CR, yet the encode succeeds: the source
skips the Reply-To validation entirely when the trimmed value is blank,
and CR is trimmed as whitespace. -/
theorem claim1_counterexample :
    optsReplyToCR.ReplyTo.contains 13 = true ∧
    isOkB (buildRFC822 env0 ent16 optsReplyToCR) = true := by
  decide

/-- Claim C1 (amended): a header-bound value containing CR or LF makes
the encode fail with an InvalidHeaderValue error (and no message bytes)
provided the value is actually validated: From, Subject and every
To/Cc/Bcc address are always validated (From and Subject non-blank after
trimming, else the MissingField check fires first); Reply-To, In-Reply-To
and References only when non-blank after trimming (else the header is
skipped); an AdditionalHeaders value only when its key and value are both
non-blank after trimming; and enough entropy must remain for the
Message-ID draw that precedes the In-Reply-To, References and
additional-header validations. -/
theorem claim1_invalid_header_value_amended (env : Env) (ent : List Nat) (opts : mailOptions)
    (hFrom : (trimSpace opts.From).isEmpty = false)
    (hTo : opts.To.isEmpty = false)
    (hSubj : (trimSpace opts.Subject).isEmpty = false)
    (hEnt : 16 ≤ ent.length)
    (hbad :
      validateHeaderValue opts.From = false ∨
      (∃ a ∈ opts.To ++ opts.Cc ++ opts.Bcc, validateHeaderValue a = false) ∨
      ((trimSpace opts.ReplyTo).isEmpty = false ∧ validateHeaderValue opts.ReplyTo = false) ∨
      validateHeaderValue opts.Subject = false ∨
      ((trimSpace opts.InReplyTo).isEmpty = false ∧
        validateHeaderValue opts.InReplyTo = false) ∨
      ((trimSpace opts.References).isEmpty = false ∧
        validateHeaderValue opts.References = false) ∨
      (∃ kv ∈ opts.AdditionalHeaders, (trimSpace kv.1).isEmpty = false ∧
        (trimSpace kv.2).isEmpty = false ∧ validateHeaderValue kv.2 = false)) :
    ∃ e, buildRFC822 env ent opts = .error e ∧ e.isInvalidHeaderValue = true := by
  have hbuild : ∀ e, headerStage env ent opts = .error e →
      buildRFC822 env ent opts = .error e := by
    intro e he
    unfold buildRFC822
    rw [he]
  cases hvF : validateHeaderValue opts.From with
  | false =>
    refine ⟨.invalidHeader (str "From"), hbuild _ ?_, rfl⟩
    unfold headerStage
    rw [if_neg (by simp [hFrom]), if_neg (by simp [hTo]), if_neg (by simp [hSubj]),
      if_pos (by simp [hvF])]
  | true =>
  cases hvA : (opts.To ++ opts.Cc ++ opts.Bcc).all validateHeaderValue with
  | false =>
    refine ⟨.invalidHeader (str "address"), hbuild _ ?_, rfl⟩
    unfold headerStage
    rw [if_neg (by simp [hFrom]), if_neg (by simp [hTo]), if_neg (by simp [hSubj]),
      if_neg (by simp [hvF]), if_pos (by rw [hvA]; rfl)]
  | true =>
  by_cases hvR : (!(trimSpace opts.ReplyTo).isEmpty && !validateHeaderValue opts.ReplyTo) = true
  · refine ⟨.invalidHeader (str "Reply-To"), hbuild _ ?_, rfl⟩
    unfold headerStage
    rw [if_neg (by simp [hFrom]), if_neg (by simp [hTo]), if_neg (by simp [hSubj]),
      if_neg (by simp [hvF]), if_neg (by rw [hvA]; simp), if_pos hvR]
  · cases hvS : validateHeaderValue opts.Subject with
    | false =>
      refine ⟨.invalidHeader (str "Subject"), hbuild _ ?_, rfl⟩
      unfold headerStage
      rw [if_neg (by simp [hFrom]), if_neg (by simp [hTo]), if_neg (by simp [hSubj]),
        if_neg (by simp [hvF]), if_neg (by rw [hvA]; simp), if_neg hvR, if_pos (by simp [hvS])]
    | true =>
    obtain ⟨mid, ent1, hmid⟩ := messageIDHeaderPart_ok ent opts hEnt
    have hpre : headerStage env ent opts = headerStageTail env opts mid ent1 := by
      unfold headerStage
      rw [if_neg (by simp [hFrom]), if_neg (by simp [hTo]), if_neg (by simp [hSubj]),
        if_neg (by simp [hvF]), if_neg (by rw [hvA]; simp), if_neg hvR,
        if_neg (by simp [hvS]), hmid]
    by_cases hvI : (!(trimSpace opts.InReplyTo).isEmpty
        && !validateHeaderValue opts.InReplyTo) = true
    · refine ⟨.invalidHeader (str "In-Reply-To"), hbuild _ ?_, rfl⟩
      rw [hpre]
      unfold headerStageTail
      rw [if_pos hvI]
    · by_cases hvRef : (!(trimSpace opts.References).isEmpty
          && !validateHeaderValue opts.References) = true
      · refine ⟨.invalidHeader (str "References"), hbuild _ ?_, rfl⟩
        rw [hpre]
        unfold headerStageTail
        rw [if_neg hvI, if_pos hvRef]
      · have hAH : ∃ kv ∈ opts.AdditionalHeaders, (trimSpace kv.1).isEmpty = false ∧
            (trimSpace kv.2).isEmpty = false ∧ validateHeaderValue kv.2 = false := by
          rcases hbad with h | h | h | h | h | h | h
          · rw [hvF] at h
            exact Bool.noConfusion h
          · obtain ⟨a, ha, hva⟩ := h
            have hall := List.all_eq_true.mp hvA a ha
            rw [hva] at hall
            exact Bool.noConfusion hall
          · exact absurd (show (!(trimSpace opts.ReplyTo).isEmpty
                && !validateHeaderValue opts.ReplyTo) = true by rw [h.1, h.2]; rfl) hvR
          · rw [hvS] at h
            exact Bool.noConfusion h
          · exact absurd (show (!(trimSpace opts.InReplyTo).isEmpty
                && !validateHeaderValue opts.InReplyTo) = true by rw [h.1, h.2]; rfl) hvI
          · exact absurd (show (!(trimSpace opts.References).isEmpty
                && !validateHeaderValue opts.References) = true by rw [h.1, h.2]; rfl) hvRef
          · exact h
        obtain ⟨e, hwerr, hkind⟩ := writeAdditionalHeaders_err opts.AdditionalHeaders
          (headersBeforeMid env opts ++ mid
            ++ headerLine (str "MIME-Version") (str "1.0")
            ++ (if (trimSpace opts.InReplyTo).isEmpty then []
                else headerLine (str "In-Reply-To") (trimSpace opts.InReplyTo))
            ++ (if (trimSpace opts.References).isEmpty then []
                else headerLine (str "References") (trimSpace opts.References))) hAH
        refine ⟨e, hbuild _ ?_, hkind⟩
        rw [hpre]
        unfold headerStageTail
        rw [if_neg hvI, if_neg hvRef, hwerr]

/-- Claim C1 witness: a To address with an embedded CR makes the encode
fail with an InvalidHeaderValue error. -/
theorem claim1_witness :
    ∃ e, buildRFC822 env0 ent16 optsBadAddr = .error e ∧ e.isInvalidHeaderValue = true :=
  claim1_invalid_header_value_amended env0 ent16 optsBadAddr
    (by decide) (by decide) (by decide) (by decide)
    (Or.inr (Or.inl ⟨str "x\r@y", by decide, by decide⟩))

/-- The no-attachment body switch and the first-part switch of the mixed
envelope both produce exactly the bytes of the claim-worded shared 3-way
rule, with the same entropy consumption. -/
theorem bodyStage_eq_spec (env : Env) (ent : List Nat) (opts : mailOptions) (hdr : List Nat) :
    bodyStage env ent opts hdr = specBodyStage env ent opts hdr := by
  unfold bodyStage specBodyStage mixedFirstPart spec3Way hasPlainB hasHTMLB specSinglePart
  cases hp : (trimSpace (normalizeCRLF opts.Body)).isEmpty
  <;> cases hh : (trimSpace (normalizeCRLF opts.BodyHTML)).isEmpty
  <;> cases hA : opts.Attachments.isEmpty
  <;> simp [hp, hh, hA]
  all_goals (first
    | rfl
    | (cases hr : randRead 18 ent with
        | none => rfl
        | some pr => ?_))
  obtain ⟨bs, ent2⟩ := pr
  show Except.ok (hdr ++ (headerLine (str "Content-Type")
        (str "multipart/alternative; boundary=" ++ goQuote (randomBoundary bs))
      ++ (crlf ++ altSection (randomBoundary bs) (normalizeCRLF opts.Body)
          (normalizeCRLF opts.BodyHTML))))
    = Except.ok (hdr ++ (str "Content-Type: multipart/alternative; boundary="
      ++ (goQuote (randomBoundary bs) ++ (crlf ++ (crlf ++ altSection (randomBoundary bs)
          (normalizeCRLF opts.Body) (normalizeCRLF opts.BodyHTML))))))
  rw [show str "Content-Type: multipart/alternative; boundary="
      = str "Content-Type" ++ str ": " ++ str "multipart/alternative; boundary=" from rfl]
  simp only [headerLine, List.append_assoc]

/-- Claim C2: the encoder equals the claim-worded reference shape: after
trimming and CRLF-normalizing both bodies, no attachments with both
bodies non-blank gives multipart/alternative with one boundary, plain
part first, html part second, both 7bit; only HTML non-blank gives a
single text/html part; otherwise a single text/plain part; with
attachments an outer multipart/mixed whose first part is built by the
same 3-way rule (fresh inner boundary drawn after the outer one),
followed by one base64 part per attachment in input order. -/
theorem claim2_body_shape (env : Env) (ent : List Nat) (opts : mailOptions) :
    buildRFC822 env ent opts = buildSpec env ent opts := by
  unfold buildRFC822 buildSpec
  cases hh : headerStage env ent opts with
  | error e => rfl
  | ok pr =>
    obtain ⟨hdr, ent1⟩ := pr
    exact bodyStage_eq_spec env ent1 opts hdr
